import Mathlib

/-!
Formal model of the PaperBriefing ingestion pipeline.

This file embeds, in Lean, the core of the repository: the text
normalizer (clean_text in pdf_parser.py), the three-strategy PDF text
extraction cascade (parse_pdf in pdf_parser.py), the document identity
computation (SHA-256 of the source key, main.py), the scrape-phase
dedup decision (scrape_papers in main.py), and the summarization loop
(summarize_papers in main.py together with summarize_text in
summarizer.py). The external libraries (PyPDF2, pdfminer, pytesseract,
requests, SQLAlchemy, the LLM providers) are modelled as oracles: each
external call is represented by its outcome, either a returned value or
a raised exception. The control flow around those outcomes is
translated from the Python source.
-/

/-! ## Text normalizer: clean_text in pdf_parser.py -/

/-- The set of characters the Python method str.isspace recognises,
which is also the set the no-argument str.split splits on. -/
def pyIsSpace (c : Char) : Bool :=
  let n := c.toNat
  (9 ≤ n && n ≤ 13) || (28 ≤ n && n ≤ 32) || n == 133 || n == 160 ||
  n == 5760 || (8192 ≤ n && n ≤ 8202) || n == 8232 || n == 8233 ||
  n == 8239 || n == 8287 || n == 12288

/-- The Python no-argument str.split: split on runs of whitespace and
discard empty pieces. -/
def pySplit (l : List Char) : List (List Char) :=
  (l.splitOnP pyIsSpace).filter (fun w => !w.isEmpty)

/-- The Python expression chr(32).join(ws): concatenate the pieces with
a single space between consecutive pieces. -/
def joinSpace : List (List Char) → List Char
  | [] => []
  | [w] => w
  | w :: w2 :: rest => w ++ ' ' :: joinSpace (w2 :: rest)

/-- clean_text from pdf_parser.py: collapse whitespace runs to single
spaces via split plus join, then drop every character whose code point
is 128 or more. -/
def clean_text (s : String) : String :=
  ⟨(joinSpace (pySplit s.data)).filter (fun c => c.toNat < 128)⟩

/-! ## Extraction cascade: parse_pdf in pdf_parser.py -/

/-- Outcome of running one external extraction strategy on one PDF:
either the strategy returns a text, or it raises an exception somewhere
(opening the file, constructing the reader, or processing a page). -/
inductive StratOutcome where
  | ok (text : String)
  | exn
  deriving DecidableEq, Repr

/-- A PDF file, abstracted to the outcomes the three external
strategies produce on it. -/
structure PdfDoc where
  pypdf2 : StratOutcome
  pdfminer : StratOutcome
  ocr : StratOutcome
  deriving DecidableEq, Repr

/-- The Python test `not text.strip()`: true exactly when the string
consists only of whitespace characters (in particular when empty). -/
def stripEmpty (s : String) : Bool :=
  s.data.all pyIsSpace

/-- The final fallback of parse_pdf: rasterise and run OCR. The source
does not wrap this stage in a try block, so an exception here
propagates to the caller; a successful OCR run returns its text with no
blankness check. -/
def ocrStage (d : PdfDoc) : Except Unit String :=
  match d.ocr with
  | .ok t => .ok t
  | .exn => .error ()

/-- The middle stage of parse_pdf: run pdfminer inside a try block; an
exception or a blank result falls through to the OCR stage. -/
def minerStage (d : PdfDoc) : Except Unit String :=
  match d.pdfminer with
  | .ok t => if stripEmpty t then ocrStage d else .ok t
  | .exn => ocrStage d

/-- parse_pdf from pdf_parser.py: try PyPDF2 inside a try block,
raising internally when the concatenated text is blank; on any
exception fall back to pdfminer, and from there to OCR. -/
def parse_pdf (d : PdfDoc) : Except Unit String :=
  match d.pypdf2 with
  | .ok t => if stripEmpty t then minerStage d else .ok t
  | .exn => minerStage d

/-- Failure of the PyPDF2 stage as the source treats it: the strategy
raised, or its concatenated text is blank. -/
def pypdf2Failed (d : PdfDoc) : Prop :=
  d.pypdf2 = .exn ∨ ∃ t, d.pypdf2 = .ok t ∧ stripEmpty t = true

/-- Failure of the pdfminer stage as the source treats it: the strategy
raised, or its text is blank. -/
def pdfminerFailed (d : PdfDoc) : Prop :=
  d.pdfminer = .exn ∨ ∃ t, d.pdfminer = .ok t ∧ stripEmpty t = true

/-! ## Persistent store: the Paper model of sql.py -/

/-- One row of the Paper table, with the columns declared in sql.py.
Nullable columns are options. -/
structure Paper where
  id : String
  title : Option String
  conference : Option String
  year : Option Int
  track : Option String
  submission_type : Option String
  platform : Option String
  pdf_url : Option String
  pdf_path : Option String
  content : Option String
  summary : Option String
  deriving DecidableEq, Repr

/-- Database.get_papers with an id filter: filter_by(id=pid).all(). -/
def get_papers_by_id (db : List Paper) (pid : String) : List Paper :=
  db.filter (fun p => p.id == pid)

/-- Database.delete_paper: delete the first row matching the id, if
any. -/
def delete_paper (db : List Paper) (pid : String) : List Paper :=
  db.eraseP (fun p => p.id == pid)

/-- Database.update_paper with an updates dict containing only the
summary field: set summary on the first row matching the id. -/
def update_paper_summary : List Paper → String → String → List Paper
  | [], _, _ => []
  | p :: rest, pid, s =>
    if p.id == pid then { p with summary := some s } :: rest
    else p :: update_paper_summary rest pid s

/-! ## Scrape-phase dedup decision: scrape_papers in main.py -/

/-- Python truthiness of a nullable string column: None and the empty
string are falsy. -/
def pyTruthy : Option String → Bool
  | none => false
  | some s => !s.isEmpty

/-- What the scrape phase decides to do for one discovered item. -/
inductive ScrapeAction where
  | skip
  | reprocessAfterDelete
  | processNew
  deriving DecidableEq, Repr

/-- The dedup branch of scrape_papers: if a row with the id exists,
delete it and reprocess when enforce_rescrape is set or the stored
content is falsy, otherwise skip; with no existing row, process as
new. -/
def scrape_dedup_action (enforce_rescrape : Bool) (db : List Paper) (pid : String) :
    ScrapeAction :=
  match get_papers_by_id db pid with
  | [] => .processNew
  | p :: _ =>
    if enforce_rescrape || !pyTruthy p.content then .reprocessAfterDelete else .skip

/-- Observable effect of the dedup branch on the store, together with
whether the loop body goes on to download the PDF. -/
structure ScrapeCheck where
  db : List Paper
  attemptsDownload : Bool
  deriving DecidableEq, Repr

/-- The dedup branch of scrape_papers as a state transformer: the skip
branch leaves the store untouched and downloads nothing; both other
branches proceed to the download. -/
def scrape_dedup_step (enforce_rescrape : Bool) (db : List Paper) (pid : String) :
    ScrapeCheck :=
  match get_papers_by_id db pid with
  | [] => ⟨db, true⟩
  | p :: _ =>
    if enforce_rescrape || !pyTruthy p.content then ⟨delete_paper db pid, true⟩
    else ⟨db, false⟩

/-! ## Call-signature facts used by the forced re-scrape path -/

/-- Parameter names of parse_pdf as defined in pdf_parser.py. -/
def parsePdfParams : List String := ["pdf_path"]

/-- Keyword argument names that scrape_papers in main.py passes to
parse_pdf beyond the positional path argument. -/
def scrapeParseCallKwargs : List String := ["use_pypdf2"]

/-- Column names of the Paper model declared in sql.py, which are also
the keyword arguments its generated constructor accepts. -/
def paperColumns : List String :=
  ["id", "title", "conference", "year", "track", "submission_type",
   "platform", "pdf_url", "pdf_path", "content", "summary"]

/-- Keyword argument names scrape_papers in main.py uses to construct
the Paper row it inserts. -/
def scrapePaperCtorKwargs : List String :=
  ["id", "collection", "title", "platform", "pdf_url", "pdf_path",
   "content", "summary"]

/-! ## Summarization phase: summarize_papers in main.py -/

/-- The Python expression content.index(m) restricted to the found
case: index of the first occurrence of the substring, scanning from
the left. -/
def firstIndexOf (needle : List Char) : List Char → Option Nat
  | [] => if needle = [] then some 0 else none
  | c :: t =>
    if needle.isPrefixOf (c :: t) then some 0
    else (firstIndexOf needle t).map (· + 1)

/-- The cap_at branch of summarize_papers: when the configured marker
is truthy and occurs in the content, cut the content at the first
occurrence; otherwise leave it unchanged. -/
def applyCapMarker (cap_at : Option String) (content : String) : String :=
  match cap_at with
  | none => content
  | some m =>
    if m.isEmpty then content
    else
      match firstIndexOf m.data content.data with
      | some i => ⟨content.data.take i⟩
      | none => content

/-- The content_cap branch of summarize_papers: when the configured cap
is truthy (not None and not zero), keep only the first content_cap
characters. -/
def applyContentCap (content_cap : Option Nat) (content : String) : String :=
  match content_cap with
  | none => content
  | some n => if n == 0 then content else ⟨content.data.take n⟩

/-- The text summarize_papers hands to summarize_text for one paper:
the stored content after the cap_at cut and then the content_cap
cut. -/
def prepare_content (cap_at : Option String) (content_cap : Option Nat)
    (content : String) : String :=
  applyContentCap content_cap (applyCapMarker cap_at content)

/-- The per-paper loop of summarize_papers. The summarize_text call is
an oracle from the prepared text to either a summary or a raised
exception. On success the row is updated and the loop moves on; the
source wraps the call in no try block, so an exception stops the loop
and propagates, leaving the store as it was at that point. The boolean
records whether the loop ran to completion. -/
def summarize_papers_loop (cap_at : Option String) (content_cap : Option Nat)
    (oracle : String → Except Unit String) (db : List Paper) :
    List (String × String) → List Paper × Bool
  | [] => (db, true)
  | (pid, content) :: rest =>
    match oracle (prepare_content cap_at content_cap content) with
    | .ok s =>
      summarize_papers_loop cap_at content_cap oracle (update_paper_summary db pid s) rest
    | .error _ => (db, false)

/-! ## Document identity: hashlib.sha256(key.encode()).hexdigest() in main.py -/

/-- Two to the thirty-second power, the word modulus of SHA-256. -/
def M32 : Nat := 4294967296

/-- Right rotation of a 32-bit word. -/
def rotr32 (n x : Nat) : Nat :=
  ((x >>> n) ||| (x <<< (32 - n))) % M32

/-- Bitwise complement of a 32-bit word. -/
def not32 (x : Nat) : Nat := x ^^^ 4294967295

/-- The SHA-256 choose function. -/
def chFn (x y z : Nat) : Nat := (x &&& y) ^^^ (not32 x &&& z)

/-- The SHA-256 majority function. -/
def majFn (x y z : Nat) : Nat := (x &&& y) ^^^ (x &&& z) ^^^ (y &&& z)

/-- The SHA-256 big sigma zero function. -/
def bigSigma0 (x : Nat) : Nat := rotr32 2 x ^^^ rotr32 13 x ^^^ rotr32 22 x

/-- The SHA-256 big sigma one function. -/
def bigSigma1 (x : Nat) : Nat := rotr32 6 x ^^^ rotr32 11 x ^^^ rotr32 25 x

/-- The SHA-256 small sigma zero function. -/
def smallSigma0 (x : Nat) : Nat := rotr32 7 x ^^^ rotr32 18 x ^^^ (x >>> 3)

/-- The SHA-256 small sigma one function. -/
def smallSigma1 (x : Nat) : Nat := rotr32 17 x ^^^ rotr32 19 x ^^^ (x >>> 10)

/-- The sixty-four SHA-256 round constants, written in decimal. -/
def sha256K : List Nat :=
  [1116352408, 1899447441, 3049323471, 3921009573, 961987163, 1508970993,
   2453635748, 2870763221, 3624381080, 310598401, 607225278, 1426881987,
   1925078388, 2162078206, 2614888103, 3248222580, 3835390401, 4022224774,
   264347078, 604807628, 770255983, 1249150122, 1555081692, 1996064986,
   2554220882, 2821834349, 2952996808, 3210313671, 3336571891, 3584528711,
   113926993, 338241895, 666307205, 773529912, 1294757372, 1396182291,
   1695183700, 1986661051, 2177026350, 2456956037, 2730485921, 2820302411,
   3259730800, 3345764771, 3516065817, 3600352804, 4094571909, 275423344,
   430227734, 506948616, 659060556, 883997877, 958139571, 1322822218,
   1537002063, 1747873779, 1955562222, 2024104815, 2227730452, 2361852424,
   2428436474, 2756734187, 3204031479, 3329325298]

/-- The eight-word working state of SHA-256. -/
structure Hash8 where
  a : Nat
  b : Nat
  c : Nat
  d : Nat
  e : Nat
  f : Nat
  g : Nat
  h : Nat
  deriving DecidableEq, Repr

/-- The SHA-256 initial hash value, written in decimal. -/
def sha256H0 : Hash8 :=
  ⟨1779033703, 3144134277, 1013904242, 2773480762,
   1359893119, 2600822924, 528734635, 1541459225⟩

/-- One SHA-256 round, taking the round constant and the schedule word
already combined modulo the word modulus. -/
def sha256Round (st : Hash8) (kw : Nat) : Hash8 :=
  let t1 := (st.h + bigSigma1 st.e + chFn st.e st.f st.g + kw) % M32
  let t2 := (bigSigma0 st.a + majFn st.a st.b st.c) % M32
  ⟨(t1 + t2) % M32, st.a, st.b, st.c, (st.d + t1) % M32, st.e, st.f, st.g⟩

/-- One step of the message-schedule extension: append the next
schedule word to the list built so far. -/
def scheduleStep (ws : List Nat) : List Nat :=
  let len := ws.length
  ws ++ [(ws.getD (len - 16) 0 + smallSigma0 (ws.getD (len - 15) 0) +
          ws.getD (len - 7) 0 + smallSigma1 (ws.getD (len - 2) 0)) % M32]

/-- The full sixty-four word message schedule of one block. -/
def sha256Schedule (block : List Nat) : List Nat :=
  scheduleStep^[48] block

/-- Compress one sixteen-word block into the running hash state. -/
def sha256Compress (st : Hash8) (block : List Nat) : Hash8 :=
  let kws := List.zipWith (fun k w => (k + w) % M32) sha256K (sha256Schedule block)
  let r := kws.foldl sha256Round st
  ⟨(st.a + r.a) % M32, (st.b + r.b) % M32, (st.c + r.c) % M32, (st.d + r.d) % M32,
   (st.e + r.e) % M32, (st.f + r.f) % M32, (st.g + r.g) % M32, (st.h + r.h) % M32⟩

/-- Interpret a byte list as big-endian words, four bytes per word. -/
def bytesToWords : List Nat → List Nat
  | b0 :: b1 :: b2 :: b3 :: rest =>
    (((b0 * 256 + b1) * 256 + b2) * 256 + b3) :: bytesToWords rest
  | _ => []

/-- Split a word list into sixteen-word blocks. -/
def blocks16 : List Nat → List (List Nat)
  | w0 :: w1 :: w2 :: w3 :: w4 :: w5 :: w6 :: w7 ::
    w8 :: w9 :: w10 :: w11 :: w12 :: w13 :: w14 :: w15 :: rest =>
    [w0, w1, w2, w3, w4, w5, w6, w7, w8, w9, w10, w11, w12, w13, w14, w15] ::
      blocks16 rest
  | _ => []

/-- The eight-byte big-endian encoding of the message bit length. -/
def beBytes8 (n : Nat) : List Nat :=
  [n / 72057594037927936 % 256, n / 281474976710656 % 256,
   n / 1099511627776 % 256, n / 4294967296 % 256,
   n / 16777216 % 256, n / 65536 % 256, n / 256 % 256, n % 256]

/-- SHA-256 padding: the byte 128, zeros up to fifty-six modulo
sixty-four, and the bit length in eight big-endian bytes. -/
def sha256Pad (msg : List Nat) : List Nat :=
  let zeros := (64 - (msg.length + 9) % 64) % 64
  msg ++ 128 :: (List.replicate zeros 0 ++ beBytes8 (8 * msg.length))

/-- The SHA-256 hash state of a byte message. -/
def sha256Bytes (msg : List Nat) : Hash8 :=
  (blocks16 (bytesToWords (sha256Pad msg))).foldl sha256Compress sha256H0

/-- The four big-endian bytes of one hash word. -/
def wordBytes (w : Nat) : List Nat :=
  [w / 16777216 % 256, w / 65536 % 256, w / 256 % 256, w % 256]

/-- The thirty-two digest bytes of a hash state. -/
def hash8Bytes (st : Hash8) : List Nat :=
  wordBytes st.a ++ wordBytes st.b ++ wordBytes st.c ++ wordBytes st.d ++
  wordBytes st.e ++ wordBytes st.f ++ wordBytes st.g ++ wordBytes st.h

/-- The lowercase hexadecimal digit of a number below sixteen. -/
def hexDigit (n : Nat) : Char :=
  if n < 10 then Char.ofNat (48 + n) else Char.ofNat (87 + n)

/-- The two lowercase hexadecimal digits of one byte. -/
def hexByte (b : Nat) : List Char :=
  [hexDigit (b / 16 % 16), hexDigit (b % 16)]

/-- The hexadecimal rendering of a byte list, as hexdigest produces. -/
def hexOfBytes (bs : List Nat) : List Char :=
  bs.foldr (fun b acc => hexByte b ++ acc) []

/-- Membership in the lowercase hexadecimal alphabet. -/
def isHexChar (c : Char) : Bool :=
  "0123456789abcdef".data.contains c

/-- The UTF-8 encoding of one character, as the Python str.encode
method produces. -/
def utf8EncodeChar (c : Char) : List Nat :=
  let n := c.toNat
  if n < 128 then [n]
  else if n < 2048 then [192 ||| (n >>> 6), 128 ||| (n &&& 63)]
  else if n < 65536 then
    [224 ||| (n >>> 12), 128 ||| ((n >>> 6) &&& 63), 128 ||| (n &&& 63)]
  else
    [240 ||| (n >>> 18), 128 ||| ((n >>> 12) &&& 63),
     128 ||| ((n >>> 6) &&& 63), 128 ||| (n &&& 63)]

/-- The UTF-8 encoding of a string. -/
def utf8Encode (s : String) : List Nat :=
  s.data.foldr (fun c acc => utf8EncodeChar c ++ acc) []

/-- The id scrape_papers assigns to a discovered item: the SHA-256
hexdigest of the UTF-8 encoded source key. -/
def compute_id (sourceKey : String) : String :=
  ⟨hexOfBytes (hash8Bytes (sha256Bytes (utf8Encode sourceKey)))⟩

/-! ## Concrete rows and oracles used to evaluate the model -/

/-- A persisted row whose extraction produced the empty string: the
operator-visible extracted-but-empty state. -/
def rowEmptyContent : Paper :=
  { id := "p1", title := some "T1", conference := none, year := none,
    track := none, submission_type := none, platform := some "openreview",
    pdf_url := some "u1", pdf_path := some "f1", content := some "",
    summary := none }

/-- A persisted row with extracted content and no summary yet. -/
def rowExtracted : Paper :=
  { id := "p2", title := some "T2", conference := none, year := none,
    track := none, submission_type := none, platform := some "openreview",
    pdf_url := some "u2", pdf_path := some "f2", content := some "Body text",
    summary := none }

/-- A persisted row that is fully summarized. -/
def rowSummarized : Paper :=
  { id := "p3", title := some "T3", conference := none, year := none,
    track := none, submission_type := none, platform := some "openreview",
    pdf_url := some "u3", pdf_path := some "f3", content := some "Body text",
    summary := some "[Topics:] t [TL;DR:] d [Summary:] s" }

/-- A row in the content-extracted state whose content the failing
summarization oracle rejects. -/
def rowA : Paper :=
  { id := "a", title := some "A", conference := none, year := none,
    track := none, submission_type := none, platform := some "openreview",
    pdf_url := some "ua", pdf_path := some "fa", content := some "A",
    summary := none }

/-- A second row in the content-extracted state, after rowA in
discovery order. -/
def rowB : Paper :=
  { id := "b", title := some "B", conference := none, year := none,
    track := none, submission_type := none, platform := some "openreview",
    pdf_url := some "ub", pdf_path := some "fb", content := some "B",
    summary := none }

/-- A summarization oracle that raises on the prepared text of rowA and
succeeds on everything else. -/
def failOnA : String → Except Unit String :=
  fun s => if s = "A" then .error () else .ok "S"

/-! ## Properties of the whitespace collapse -/

/-- The whitespace-collapse step of clean_text on character lists. -/
def collapseWS (l : List Char) : List Char :=
  joinSpace (pySplit l)

theorem splitOnP_pieces {α : Type} (p : α → Bool) :
    ∀ l : List α, ∀ w ∈ l.splitOnP p, ∀ c ∈ w, p c = false ∧ c ∈ l := by
  intro l
  induction l with
  | nil =>
    intro w hw c hc
    simp only [List.splitOnP_nil, List.mem_singleton] at hw
    subst hw
    exact absurd hc (List.not_mem_nil c)
  | cons a l ih =>
    intro w hw c hc
    rw [List.splitOnP_cons] at hw
    by_cases hpa : p a
    · rw [if_pos hpa] at hw
      rcases List.mem_cons.mp hw with h | h
      · subst h; exact absurd hc (List.not_mem_nil c)
      · obtain ⟨hc1, hc2⟩ := ih w h c hc
        exact ⟨hc1, List.mem_cons_of_mem a hc2⟩
    · rw [if_neg hpa] at hw
      cases hsp : l.splitOnP p with
      | nil => rw [hsp] at hw; exact absurd hw (List.not_mem_nil w)
      | cons h t =>
        rw [hsp] at hw
        simp only [List.modifyHead] at hw
        rcases List.mem_cons.mp hw with hw1 | hw1
        · subst hw1
          rcases List.mem_cons.mp hc with hc1 | hc1
          · subst hc1
            exact ⟨Bool.eq_false_iff.mpr hpa, List.mem_cons_self c l⟩
          · obtain ⟨g1, g2⟩ := ih h (hsp ▸ List.mem_cons_self h t) c hc1
            exact ⟨g1, List.mem_cons_of_mem a g2⟩
        · obtain ⟨g1, g2⟩ := ih w (hsp ▸ List.mem_cons_of_mem h hw1) c hc
          exact ⟨g1, List.mem_cons_of_mem a g2⟩

theorem pySplit_pieces (l : List Char) :
    ∀ w ∈ pySplit l, w ≠ [] ∧ ∀ c ∈ w, pyIsSpace c = false ∧ c ∈ l := by
  intro w hw
  unfold pySplit at hw
  obtain ⟨hmem, hne⟩ := List.mem_filter.mp hw
  refine ⟨?_, fun c hc => splitOnP_pieces pyIsSpace l w hmem c hc⟩
  intro h
  subst h
  simp at hne

theorem pySplit_joinSpace :
    ∀ ws : List (List Char),
      (∀ w ∈ ws, w ≠ [] ∧ ∀ c ∈ w, pyIsSpace c = false) →
      pySplit (joinSpace ws) = ws := by
  intro ws
  induction ws with
  | nil =>
    intro _
    simp [joinSpace, pySplit, List.splitOnP_nil]
  | cons w rest ih =>
    intro hws
    obtain ⟨hne, hsp⟩ := hws w (List.mem_cons_self w rest)
    cases rest with
    | nil =>
      show pySplit (joinSpace [w]) = [w]
      unfold joinSpace pySplit
      rw [List.splitOnP_eq_single]
      · simp [hne]
      · intro x hx
        simpa using hsp x hx
    | cons w2 rest2 =>
      show pySplit (joinSpace (w :: w2 :: rest2)) = w :: w2 :: rest2
      have hjoin : joinSpace (w :: w2 :: rest2) = w ++ ' ' :: joinSpace (w2 :: rest2) := rfl
      rw [hjoin]
      unfold pySplit
      rw [List.splitOnP_first pyIsSpace w (fun x hx => by simpa using hsp x hx) ' '
        (by decide) (joinSpace (w2 :: rest2))]
      simp only [List.filter_cons, hne, ne_eq]
      have hwkeep : (!w.isEmpty) = true := by
        cases w with
        | nil => exact absurd rfl hne
        | cons a t => rfl
      rw [hwkeep]
      have hih := ih (fun v hv => hws v (List.mem_cons_of_mem w hv))
      unfold pySplit at hih
      rw [hih]
      simp

theorem collapseWS_idem (l : List Char) :
    collapseWS (collapseWS l) = collapseWS l := by
  unfold collapseWS
  rw [pySplit_joinSpace (pySplit l)
    (fun w hw => ⟨(pySplit_pieces l w hw).1, fun c hc => ((pySplit_pieces l w hw).2 c hc).1⟩)]

theorem mem_joinSpace :
    ∀ ws : List (List Char), ∀ c ∈ joinSpace ws, c = ' ' ∨ ∃ w ∈ ws, c ∈ w := by
  intro ws
  induction ws with
  | nil => intro c hc; exact absurd hc (List.not_mem_nil c)
  | cons w rest ih =>
    intro c hc
    cases rest with
    | nil =>
      exact Or.inr ⟨w, List.mem_cons_self w [], hc⟩
    | cons w2 rest2 =>
      have hjoin : joinSpace (w :: w2 :: rest2) = w ++ ' ' :: joinSpace (w2 :: rest2) := rfl
      rw [hjoin] at hc
      rcases List.mem_append.mp hc with h | h
      · exact Or.inr ⟨w, List.mem_cons_self w _, h⟩
      · rcases List.mem_cons.mp h with h1 | h1
        · exact Or.inl h1
        · rcases ih c h1 with h2 | ⟨v, hv1, hv2⟩
          · exact Or.inl h2
          · exact Or.inr ⟨v, List.mem_cons_of_mem w hv1, hv2⟩

theorem mem_collapseWS (l : List Char) :
    ∀ c ∈ collapseWS l, c = ' ' ∨ c ∈ l := by
  intro c hc
  rcases mem_joinSpace (pySplit l) c hc with h | ⟨w, hw, hcw⟩
  · exact Or.inl h
  · exact Or.inr ((pySplit_pieces l w hw).2 c hcw).2

theorem clean_text_eq_collapse_of_ascii (s : String)
    (h : ∀ c ∈ s.data, c.toNat < 128) :
    clean_text s = ⟨collapseWS s.data⟩ := by
  unfold clean_text collapseWS
  congr 1
  rw [List.filter_eq_self]
  intro c hc
  rcases mem_collapseWS s.data c hc with h1 | h1
  · subst h1; decide
  · simpa using h c h1

example : parse_pdf ⟨.exn, .exn, .exn⟩ = .error () := rfl
example : parse_pdf ⟨.ok "Hello World", .exn, .exn⟩ = .ok "Hello World" := rfl
example : parse_pdf ⟨.ok "  ", .ok "x", .exn⟩ = .ok "x" := rfl
example : parse_pdf ⟨.exn, .ok " \n", .ok "ABSTRACT"⟩ = .ok "ABSTRACT" := rfl
example : clean_text "Self-\n  supervised learning" = "Self- supervised learning" := by decide
example : clean_text "a é b" = "a  b" := by decide
example : clean_text "a  b" = "a b" := by decide

example : compute_id "" = "e3b0c44298fc1c149afbf4c8996fb92427ae41e4649b934ca495991b7852b855" := by decide
example : compute_id "abc" = "ba7816bf8f01cfea414140de5dae2223b00361a396177a9cb410ff61f20015ad" := by decide

/-! ## Cascade lemmas -/

theorem parse_pdf_ok_of_pypdf2 (d : PdfDoc) (t : String)
    (h1 : d.pypdf2 = .ok t) (h2 : stripEmpty t = false) :
    parse_pdf d = .ok t := by
  unfold parse_pdf
  rw [h1]
  simp [h2]

theorem parse_pdf_of_pypdf2Failed (d : PdfDoc) (h : pypdf2Failed d) :
    parse_pdf d = minerStage d := by
  unfold parse_pdf
  rcases h with h | ⟨t, h1, h2⟩
  · rw [h]
  · rw [h1]
    simp [h2]

theorem minerStage_ok_of_pdfminer (d : PdfDoc) (t : String)
    (h1 : d.pdfminer = .ok t) (h2 : stripEmpty t = false) :
    minerStage d = .ok t := by
  unfold minerStage
  rw [h1]
  simp [h2]

theorem minerStage_of_pdfminerFailed (d : PdfDoc) (h : pdfminerFailed d) :
    minerStage d = ocrStage d := by
  unfold minerStage
  rcases h with h | ⟨t, h1, h2⟩
  · rw [h]
  · rw [h1]
    simp [h2]

theorem ocrStage_ok_cases (d : PdfDoc) (t : String) (h : ocrStage d = .ok t) :
    d.ocr = .ok t := by
  unfold ocrStage at h
  cases ho : d.ocr with
  | ok t1 =>
    rw [ho] at h
    injection h with h1
    rw [h1]
  | exn =>
    rw [ho] at h
    exact absurd h (by simp)

theorem minerStage_ok_cases (d : PdfDoc) (t : String) (h : minerStage d = .ok t) :
    (d.pdfminer = .ok t ∧ stripEmpty t = false) ∨
    (pdfminerFailed d ∧ d.ocr = .ok t) := by
  cases hp : d.pdfminer with
  | ok t0 =>
    cases hb : stripEmpty t0 with
    | false =>
      rw [minerStage_ok_of_pdfminer d t0 hp hb] at h
      injection h with h1
      subst h1
      exact Or.inl ⟨rfl, hb⟩
    | true =>
      have hf : pdfminerFailed d := Or.inr ⟨t0, hp, hb⟩
      rw [minerStage_of_pdfminerFailed d hf] at h
      exact Or.inr ⟨hf, ocrStage_ok_cases d t h⟩
  | exn =>
    have hf : pdfminerFailed d := Or.inl hp
    rw [minerStage_of_pdfminerFailed d hf] at h
    exact Or.inr ⟨hf, ocrStage_ok_cases d t h⟩

theorem parse_pdf_ok_cases (d : PdfDoc) (t : String) (h : parse_pdf d = .ok t) :
    (d.pypdf2 = .ok t ∧ stripEmpty t = false) ∨
    (pypdf2Failed d ∧ minerStage d = .ok t) := by
  cases hp : d.pypdf2 with
  | ok t0 =>
    cases hb : stripEmpty t0 with
    | false =>
      rw [parse_pdf_ok_of_pypdf2 d t0 hp hb] at h
      injection h with h1
      subst h1
      exact Or.inl ⟨rfl, hb⟩
    | true =>
      have hf : pypdf2Failed d := Or.inr ⟨t0, hp, hb⟩
      rw [parse_pdf_of_pypdf2Failed d hf] at h
      exact Or.inr ⟨hf, h⟩
  | exn =>
    have hf : pypdf2Failed d := Or.inl hp
    rw [parse_pdf_of_pypdf2Failed d hf] at h
    exact Or.inr ⟨hf, h⟩

/-- Claim C1 (counterexample): on a PDF where every strategy raises,
such as a corrupt or unreadable file, parse_pdf does not return a
string: the OCR exception propagates to the caller. -/
theorem parse_pdf_raises_when_all_strategies_fail :
    parse_pdf ⟨.exn, .exn, .exn⟩ = .error () := rfl

/-- Claim C1 (amended): parse_pdf isolates failures of the two
embedded-text readers and returns a string whenever the OCR stage does
not raise; it raises exactly when both embedded readers fail and the
unprotected OCR stage raises too. -/
theorem parse_pdf_error_characterisation (d : PdfDoc) :
    parse_pdf d = .error () ↔ pypdf2Failed d ∧ pdfminerFailed d ∧ d.ocr = .exn := by
  constructor
  · intro h
    have h1 : pypdf2Failed d := by
      cases hp : d.pypdf2 with
      | ok t =>
        cases hb : stripEmpty t with
        | false =>
          rw [parse_pdf_ok_of_pypdf2 d t hp hb] at h
          exact absurd h (by simp)
        | true => exact Or.inr ⟨t, hp, hb⟩
      | exn => exact Or.inl hp
    have hm : minerStage d = .error () := by
      rw [← parse_pdf_of_pypdf2Failed d h1]
      exact h
    have h2 : pdfminerFailed d := by
      cases hp : d.pdfminer with
      | ok t =>
        cases hb : stripEmpty t with
        | false =>
          rw [minerStage_ok_of_pdfminer d t hp hb] at hm
          exact absurd hm (by simp)
        | true => exact Or.inr ⟨t, hp, hb⟩
      | exn => exact Or.inl hp
    have ho : ocrStage d = .error () := by
      rw [← minerStage_of_pdfminerFailed d h2]
      exact hm
    have h3 : d.ocr = .exn := by
      cases hp : d.ocr with
      | ok t =>
        unfold ocrStage at ho
        rw [hp] at ho
        exact absurd ho (by simp)
      | exn => rfl
    exact ⟨h1, h2, h3⟩
  · rintro ⟨h1, h2, h3⟩
    rw [parse_pdf_of_pypdf2Failed d h1, minerStage_of_pdfminerFailed d h2]
    unfold ocrStage
    rw [h3]

/-- Claim C1 (witness): a blank PyPDF2 result with raising pdfminer and
OCR makes parse_pdf raise. -/
theorem parse_pdf_error_characterisation_witness :
    parse_pdf ⟨.ok " ", .exn, .exn⟩ = .error () :=
  (parse_pdf_error_characterisation ⟨.ok " ", .exn, .exn⟩).mpr
    ⟨Or.inr ⟨" ", rfl, by decide⟩, Or.inl rfl, rfl⟩

/-- Claim C6: the cascade tries PyPDF2, then pdfminer, then OCR, in
that order: a non-blank PyPDF2 text is returned as is; with PyPDF2
failed, a non-blank pdfminer text is returned as is; OCR output is
consulted only when both embedded readers failed; and any returned
text is exactly the output of one strategy, with every earlier
strategy failed. -/
theorem parse_pdf_cascade_order (d : PdfDoc) :
    (∀ t, d.pypdf2 = .ok t → stripEmpty t = false → parse_pdf d = .ok t)
  ∧ (∀ t, pypdf2Failed d → d.pdfminer = .ok t → stripEmpty t = false →
      parse_pdf d = .ok t)
  ∧ (pypdf2Failed d → pdfminerFailed d → parse_pdf d = ocrStage d)
  ∧ (∀ t, parse_pdf d = .ok t →
      (d.pypdf2 = .ok t ∧ stripEmpty t = false)
      ∨ (pypdf2Failed d ∧ d.pdfminer = .ok t ∧ stripEmpty t = false)
      ∨ (pypdf2Failed d ∧ pdfminerFailed d ∧ d.ocr = .ok t)) := by
  refine ⟨fun t h1 h2 => parse_pdf_ok_of_pypdf2 d t h1 h2, ?_, ?_, ?_⟩
  · intro t hf h1 h2
    rw [parse_pdf_of_pypdf2Failed d hf]
    exact minerStage_ok_of_pdfminer d t h1 h2
  · intro hf1 hf2
    rw [parse_pdf_of_pypdf2Failed d hf1]
    exact minerStage_of_pdfminerFailed d hf2
  · intro t h
    rcases parse_pdf_ok_cases d t h with h1 | ⟨hf1, hm⟩
    · exact Or.inl h1
    · rcases minerStage_ok_cases d t hm with h2 | ⟨hf2, ho⟩
      · exact Or.inr (Or.inl ⟨hf1, h2.1, h2.2⟩)
      · exact Or.inr (Or.inr ⟨hf1, hf2, ho⟩)

/-- Claim C6 (witness): the three branches of the cascade order at
concrete documents. -/
theorem parse_pdf_cascade_order_witness :
    parse_pdf ⟨.ok "Hello World", .exn, .exn⟩ = .ok "Hello World" ∧
    parse_pdf ⟨.ok " ", .ok "Layout text", .exn⟩ = .ok "Layout text" ∧
    parse_pdf ⟨.exn, .ok "", .ok "ABSTRACT"⟩ = ocrStage ⟨.exn, .ok "", .ok "ABSTRACT"⟩ :=
  ⟨(parse_pdf_cascade_order ⟨.ok "Hello World", .exn, .exn⟩).1 "Hello World" rfl (by decide),
   (parse_pdf_cascade_order ⟨.ok " ", .ok "Layout text", .exn⟩).2.1 "Layout text"
     (Or.inr ⟨" ", rfl, by decide⟩) rfl (by decide),
   (parse_pdf_cascade_order ⟨.exn, .ok "", .ok "ABSTRACT"⟩).2.2.1
     (Or.inl rfl) (Or.inr ⟨"", rfl, by decide⟩)⟩

/-! ## Normalizer idempotence and the hyphen scenario -/

/-- Claim C2 (counterexample): clean_text is not idempotent. Stripping
a non-ASCII character after the whitespace collapse can leave two
adjacent spaces, which a second pass collapses further. -/
theorem clean_text_not_idempotent :
    clean_text (clean_text "a é b") ≠ clean_text "a é b" := by decide

/-- Claim C2 (amended): clean_text is idempotent on every input whose
characters all have code points below 128; on such inputs the
non-ASCII strip is the identity, and the whitespace collapse is
idempotent. -/
theorem clean_text_idempotent_on_ascii (s : String)
    (h : ∀ c ∈ s.data, c.toNat < 128) :
    clean_text (clean_text s) = clean_text s := by
  have h1 : clean_text s = ⟨collapseWS s.data⟩ := clean_text_eq_collapse_of_ascii s h
  have h2 : ∀ c ∈ collapseWS s.data, c.toNat < 128 := by
    intro c hc
    rcases mem_collapseWS s.data c hc with h3 | h3
    · subst h3; decide
    · exact h c h3
  have h4 : clean_text ⟨collapseWS s.data⟩ = ⟨collapseWS (collapseWS s.data)⟩ :=
    clean_text_eq_collapse_of_ascii ⟨collapseWS s.data⟩ h2
  rw [h1, h4, collapseWS_idem]

/-- Claim C2 (witness): idempotence at a concrete ASCII input. -/
theorem clean_text_idempotent_on_ascii_witness :
    (∀ c ∈ ("Hello   World" : String).data, c.toNat < 128) ∧
    clean_text (clean_text "Hello   World") = clean_text "Hello   World" :=
  ⟨by decide, clean_text_idempotent_on_ascii "Hello   World" (by decide)⟩

theorem pySplit_cons_space (c : Char) (hc : pyIsSpace c = true) (l : List Char) :
    pySplit (c :: l) = pySplit l := by
  unfold pySplit
  rw [List.splitOnP_cons, if_pos hc, List.filter_cons]
  simp

theorem pySplit_space_append (ws l : List Char) (h : ∀ c ∈ ws, pyIsSpace c = true) :
    pySplit (ws ++ l) = pySplit l := by
  induction ws with
  | nil => rfl
  | cons c t ih =>
    rw [List.cons_append, pySplit_cons_space c (h c (List.mem_cons_self c t)) (t ++ l)]
    exact ih (fun x hx => h x (List.mem_cons_of_mem c hx))

theorem pySplit_single_word (w : List Char) (hne : w ≠ [])
    (hsp : ∀ c ∈ w, pyIsSpace c = false) : pySplit w = [w] := by
  unfold pySplit
  rw [List.splitOnP_eq_single pyIsSpace w (fun x hx => by simpa using hsp x hx)]
  simp [hne]

/-- Claim C5 (counterexample): on the scenario input the normalizer
keeps the hyphen and inserts a single space; it does not produce the
de-hyphenated word, because clean_text has no de-hyphenation step. -/
theorem clean_text_scenario_keeps_hyphen :
    clean_text "Self-\n  supervised learning" = "Self- supervised learning" ∧
    clean_text "Self-\n  supervised learning" ≠ "Selfsupervised learning" := by decide

/-- Claim C5 (amended): the normalizer has no de-hyphenation step. On
an input of the form word, hyphen, whitespace run, word, it collapses
the whitespace to one space and keeps the hyphen, yielding word-
space word, not the rejoined wordword. -/
theorem clean_text_hyphen_break_retained (a b ws : List Char)
    (hb : b ≠ [])
    (ha2 : ∀ c ∈ a, pyIsSpace c = false ∧ c.toNat < 128)
    (hb2 : ∀ c ∈ b, pyIsSpace c = false ∧ c.toNat < 128)
    (hws1 : ws ≠ []) (hws2 : ∀ c ∈ ws, pyIsSpace c = true) :
    clean_text ⟨a ++ '-' :: (ws ++ b)⟩ = ⟨a ++ '-' :: (' ' :: b)⟩ := by
  unfold clean_text
  congr 1
  have hsplit : pySplit (a ++ '-' :: (ws ++ b)) = [a ++ ['-'], b] := by
    cases ws with
    | nil => exact absurd rfl hws1
    | cons s ws2 =>
      have h1 : a ++ '-' :: (s :: ws2 ++ b) = (a ++ ['-']) ++ s :: (ws2 ++ b) := by
        simp
      show pySplit (a ++ '-' :: (s :: ws2 ++ b)) = [a ++ ['-'], b]
      rw [h1]
      unfold pySplit
      rw [List.splitOnP_first pyIsSpace (a ++ ['-'])
        (fun x hx => by
          rcases List.mem_append.mp hx with h2 | h2
          · simpa using (ha2 x h2).1
          · simp only [List.mem_singleton] at h2
            subst h2
            decide)
        s (hws2 s (List.mem_cons_self s ws2)) (ws2 ++ b)]
      rw [List.filter_cons]
      have hkeep : (!(a ++ ['-']).isEmpty) = true := by
        simp
      rw [hkeep]
      have htail : List.filter (fun w => !w.isEmpty) ((ws2 ++ b).splitOnP pyIsSpace)
          = pySplit (ws2 ++ b) := rfl
      simp only [if_true]
      rw [htail, pySplit_space_append ws2 b
        (fun x hx => hws2 x (List.mem_cons_of_mem s hx)),
        pySplit_single_word b hb (fun c hc => (hb2 c hc).1)]
  rw [show (⟨a ++ '-' :: (ws ++ b)⟩ : String).data = a ++ '-' :: (ws ++ b) from rfl,
    hsplit]
  have hjoin : joinSpace [a ++ ['-'], b] = (a ++ ['-']) ++ ' ' :: b := rfl
  rw [hjoin]
  rw [List.filter_eq_self.mpr]
  · simp
  · intro x hx
    rcases List.mem_append.mp hx with h2 | h2
    · rcases List.mem_append.mp h2 with h3 | h3
      · simpa using (ha2 x h3).2
      · simp only [List.mem_singleton] at h3
        subst h3
        decide
    · rcases List.mem_cons.mp h2 with h3 | h3
      · subst h3
        decide
      · simpa using (hb2 x h3).2

/-- Claim C5 (witness): the hyphen-break shape at a concrete input. -/
theorem clean_text_hyphen_break_retained_witness :
    clean_text "Self-\n  supervised" = "Self- supervised" := by
  have h := clean_text_hyphen_break_retained "Self".data "supervised".data
    ['\n', ' ', ' '] (by decide) (by decide) (by decide) (by decide) (by decide)
  have e1 : ("Self-\n  supervised" : String)
      = ⟨"Self".data ++ '-' :: (['\n', ' ', ' '] ++ "supervised".data)⟩ := by decide
  have e2 : ("Self- supervised" : String)
      = ⟨"Self".data ++ '-' :: (' ' :: "supervised".data)⟩ := by decide
  rw [e1, e2]
  exact h

/-! ## Scrape-phase dedup claims -/

/-- Claim C4 (counterexample): a persisted row whose content is the
empty string (extraction attempted, empty result) is not skipped with
the force flag unset: the dedup branch deletes the row and proceeds to
re-download. -/
theorem scrape_empty_content_row_deleted :
    scrape_dedup_step false [rowEmptyContent] "p1" = ⟨[], true⟩ ∧
    scrape_dedup_action false [rowEmptyContent] "p1" = .reprocessAfterDelete ∧
    scrape_dedup_step false [rowEmptyContent] "p1" ≠ ⟨[rowEmptyContent], false⟩ := by
  decide

/-- Claim C4 (amended): with the force flag unset, the scrape phase
skips an item exactly when the persisted row has non-null AND
non-empty content: then it performs no deletion, attempts no download,
and leaves the store unchanged. An empty-string content is falsy in
the source check, so such a row is deleted and reprocessed instead. -/
theorem scrape_skips_nonempty_content (enforce : Bool) (db : List Paper)
    (pid : String) (p : Paper) (rest : List Paper) (s : String)
    (hfind : get_papers_by_id db pid = p :: rest)
    (hc : p.content = some s) (hs : s ≠ "") (hforce : enforce = false) :
    scrape_dedup_step enforce db pid = ⟨db, false⟩ ∧
    scrape_dedup_action enforce db pid = .skip := by
  subst hforce
  constructor
  · unfold scrape_dedup_step
    rw [hfind]
    simp [pyTruthy, hc, String.isEmpty_iff, hs]
  · unfold scrape_dedup_action
    rw [hfind]
    simp [pyTruthy, hc, String.isEmpty_iff, hs]

/-- Claim C4 (witness): a row with non-empty content is skipped with no
store change and no download. -/
theorem scrape_skips_nonempty_content_witness :
    scrape_dedup_step false [rowExtracted] "p2" = ⟨[rowExtracted], false⟩ ∧
    scrape_dedup_action false [rowExtracted] "p2" = .skip :=
  scrape_skips_nonempty_content false [rowExtracted] "p2" rowExtracted [] "Body text"
    (by decide) (by decide) (by decide) rfl

/-- Claim C7: with the force flag set, the dedup branch does delete the
existing summarized row and proceeds, but the reprocessing path cannot
produce a new row: scrape_papers calls parse_pdf with the keyword
argument use_pypdf2, which parse_pdf does not accept, and constructs
its Paper row with the keyword argument collection, which the sql.py
model does not declare; both calls raise TypeError before any
insertion. -/
theorem scrape_force_rescrape_crashes_before_reinsert :
    scrape_dedup_step true [rowSummarized] "p3" = ⟨[], true⟩ ∧
    ("use_pypdf2" ∈ scrapeParseCallKwargs ∧ "use_pypdf2" ∉ parsePdfParams) ∧
    ("collection" ∈ scrapePaperCtorKwargs ∧ "collection" ∉ paperColumns) := by
  decide

/-! ## Summarization-phase claims -/

/-- Claim C3 (counterexample): when the summarization call raises on
the first Document, the loop stops: the second Document, on which the
oracle would succeed, is never summarized, so the run does not
continue to the next Document. -/
theorem summarize_failure_stops_batch :
    summarize_papers_loop none none failOnA [rowA, rowB] [("a", "A"), ("b", "B")]
      = ([rowA, rowB], false) ∧
    failOnA "B" = .ok "S" :=
  ⟨by decide, rfl⟩

/-- Claim C3 (amended): if the summarization call for a Document
raises, that Document keeps a null summary and its row is unchanged,
still in the content-extracted state; but the exception propagates and
the whole batch stops instead of continuing with the next Document. -/
theorem summarize_failure_leaves_row_and_aborts
    (cap : Option String) (capN : Option Nat)
    (oracle : String → Except Unit String) (db : List Paper)
    (pid c : String) (rest : List (String × String))
    (h : oracle (prepare_content cap capN c) = .error ()) :
    summarize_papers_loop cap capN oracle db ((pid, c) :: rest) = (db, false) := by
  unfold summarize_papers_loop
  rw [h]

/-- Claim C3 (witness): the aborting failure at a concrete store. -/
theorem summarize_failure_leaves_row_and_aborts_witness :
    summarize_papers_loop none none failOnA [rowA, rowB] [("a", "A")]
      = ([rowA, rowB], false) :=
  summarize_failure_leaves_row_and_aborts none none failOnA [rowA, rowB] "a" "A" []
    rfl

/-! ## Cap marker and content cap -/

theorem firstIndexOf_some (needle : List Char) :
    ∀ (l : List Char) (i : Nat), firstIndexOf needle l = some i →
      needle <+: l.drop i ∧ ∀ j < i, ¬ needle <+: l.drop j := by
  intro l
  induction l with
  | nil =>
    intro i h
    unfold firstIndexOf at h
    by_cases hn : needle = []
    · rw [if_pos hn] at h
      injection h with h1
      subst h1
      subst hn
      exact ⟨List.nil_prefix, fun j hj => absurd hj (Nat.not_lt_zero j)⟩
    · rw [if_neg hn] at h
      exact absurd h (by simp)
  | cons c t ih =>
    intro i h
    unfold firstIndexOf at h
    by_cases hp : needle.isPrefixOf (c :: t)
    · rw [if_pos hp] at h
      injection h with h1
      subst h1
      refine ⟨by simpa using List.isPrefixOf_iff_prefix.mp hp, ?_⟩
      intro j hj
      exact absurd hj (Nat.not_lt_zero j)
    · rw [if_neg hp] at h
      cases hfi : firstIndexOf needle t with
      | none =>
        rw [hfi] at h
        exact absurd h (by simp)
      | some i0 =>
        rw [hfi] at h
        simp at h
        subst h
        obtain ⟨g1, g2⟩ := ih i0 hfi
        refine ⟨by simpa using g1, ?_⟩
        intro j hj
        cases j with
        | zero =>
          intro hpre
          exact hp (List.isPrefixOf_iff_prefix.mpr (by simpa using hpre))
        | succ j0 =>
          intro hpre
          exact g2 j0 (by omega) (by simpa using hpre)

/-- Claim C8: with a configured non-empty cap marker occurring in the
content, the prepared text is the content cut at the first occurrence
of the marker (the index found is an occurrence and no earlier index
is one); with the marker unset, empty, or absent from the content, the
content is unchanged; and the scenario input is cut just before the
References section. -/
theorem cap_marker_truncates_at_first_occurrence :
    (∀ (m content : String) (i : Nat), m ≠ "" →
        firstIndexOf m.data content.data = some i →
        applyCapMarker (some m) content = ⟨content.data.take i⟩ ∧
        m.data <+: content.data.drop i ∧
        ∀ j < i, ¬ m.data <+: content.data.drop j)
  ∧ (∀ content : String, applyCapMarker none content = content)
  ∧ (∀ m content : String, firstIndexOf m.data content.data = none →
        applyCapMarker (some m) content = content)
  ∧ applyCapMarker (some "References") "Introduction... References [1] Smith..."
      = "Introduction... " := by
  refine ⟨?_, fun _ => rfl, ?_, by decide⟩
  · intro m content i hm hfi
    obtain ⟨g1, g2⟩ := firstIndexOf_some m.data content.data i hfi
    refine ⟨?_, g1, g2⟩
    have hm2 : m.isEmpty = false := by
      rcases Bool.eq_false_or_eq_true m.isEmpty with h | h
      · exact absurd ((String.isEmpty_iff m).mp h) hm
      · exact h
    show (if m.isEmpty = true then content
        else match firstIndexOf m.data content.data with
          | some i2 => (⟨content.data.take i2⟩ : String)
          | none => content)
      = ⟨content.data.take i⟩
    rw [if_neg (by simp [hm2]), hfi]
  · intro m content hfi
    show (if m.isEmpty = true then content
        else match firstIndexOf m.data content.data with
          | some i2 => (⟨content.data.take i2⟩ : String)
          | none => content)
      = content
    by_cases hm : m.isEmpty = true
    · rw [if_pos hm]
    · rw [if_neg hm, hfi]

/-- Claim C8 (witness): the scenario marker and content. -/
theorem cap_marker_truncates_witness :
    applyCapMarker (some "References") "Introduction... References [1] Smith..."
      = "Introduction... " := by
  have h := (cap_marker_truncates_at_first_occurrence.1 "References"
    "Introduction... References [1] Smith..." 16 (by decide) (by decide)).1
  rw [h]
  decide

theorem update_paper_summary_map (pid s : String) :
    ∀ db : List Paper,
      (update_paper_summary db pid s).map (fun p => (p.id, p.content))
        = db.map (fun p => (p.id, p.content)) := by
  intro db
  induction db with
  | nil => rfl
  | cons p rest ih =>
    unfold update_paper_summary
    cases h : (p.id == pid) with
    | true => simp
    | false => simpa using ih

theorem summarize_loop_preserves_content (cap : Option String) (capN : Option Nat)
    (oracle : String → Except Unit String) :
    ∀ (papers : List (String × String)) (db : List Paper),
      ((summarize_papers_loop cap capN oracle db papers).1).map
          (fun p => (p.id, p.content))
        = db.map (fun p => (p.id, p.content)) := by
  intro papers
  induction papers with
  | nil => intro db; rfl
  | cons pc rest ih =>
    intro db
    obtain ⟨pid, c⟩ := pc
    unfold summarize_papers_loop
    cases ho : oracle (prepare_content cap capN c) with
    | ok s =>
      simp only [ho]
      rw [ih (update_paper_summary db pid s), update_paper_summary_map]
    | error e =>
      simp only [ho]

/-- Claim C10: after the cap-marker cut, a set and truthy content_cap
further truncates the text handed to the summarizer to its first
content_cap characters, while a missing or zero cap leaves it alone;
and the summarization loop never modifies the persisted content field
of any row, whatever the oracle does. -/
theorem content_cap_truncates_prepared_text_only :
    (∀ (cap : Option String) (n : Nat) (content : String), n ≠ 0 →
        prepare_content cap (some n) content
          = ⟨(applyCapMarker cap content).data.take n⟩)
  ∧ (∀ (cap : Option String) (content : String),
        prepare_content cap none content = applyCapMarker cap content)
  ∧ (∀ (cap : Option String) (content : String),
        prepare_content cap (some 0) content = applyCapMarker cap content)
  ∧ (∀ (cap : Option String) (capN : Option Nat)
        (oracle : String → Except Unit String) (db : List Paper)
        (papers : List (String × String)),
        ((summarize_papers_loop cap capN oracle db papers).1).map
            (fun p => (p.id, p.content))
          = db.map (fun p => (p.id, p.content))) := by
  refine ⟨?_, fun _ _ => rfl, fun _ _ => rfl, ?_⟩
  · intro cap n content hn
    show (if n == 0 then applyCapMarker cap content
        else (⟨(applyCapMarker cap content).data.take n⟩ : String))
      = ⟨(applyCapMarker cap content).data.take n⟩
    rw [if_neg (by simpa using hn)]
  · intro cap capN oracle db papers
    exact summarize_loop_preserves_content cap capN oracle papers db

/-- Claim C10 (witness): a concrete truthy cap truncates the prepared
text. -/
theorem content_cap_truncates_witness :
    prepare_content none (some 5) "Hello World" = "Hello" := by
  have h := content_cap_truncates_prepared_text_only.1 none 5 "Hello World"
    (by decide)
  rw [h]
  decide

/-! ## Document identity claims -/

theorem hexDigit_hex_of_fin : ∀ n : Fin 16, isHexChar (hexDigit n.val) = true := by
  decide

theorem hexByte_all_hex (b : Nat) : (hexByte b).all isHexChar = true := by
  unfold hexByte
  rw [List.all_cons, List.all_cons, List.all_nil]
  have h1 := hexDigit_hex_of_fin ⟨b / 16 % 16, Nat.mod_lt _ (by norm_num)⟩
  have h2 := hexDigit_hex_of_fin ⟨b % 16, Nat.mod_lt _ (by norm_num)⟩
  simp only at h1 h2
  rw [h1, h2]
  rfl

theorem hexOfBytes_all_hex : ∀ bs : List Nat, (hexOfBytes bs).all isHexChar = true := by
  intro bs
  induction bs with
  | nil => rfl
  | cons b rest ih =>
    show ((hexByte b ++ hexOfBytes rest).all isHexChar) = true
    rw [List.all_append, hexByte_all_hex, ih]
    rfl

theorem hexOfBytes_length : ∀ bs : List Nat, (hexOfBytes bs).length = 2 * bs.length := by
  intro bs
  induction bs with
  | nil => rfl
  | cons b rest ih =>
    show (hexByte b ++ hexOfBytes rest).length = 2 * (rest.length + 1)
    rw [List.length_append, ih]
    simp [hexByte]
    ring

theorem hash8Bytes_length (st : Hash8) : (hash8Bytes st).length = 32 := by
  simp [hash8Bytes, wordBytes]

/-- Claim C9: compute_id is a pure function of the source key, so two
computations on the same key, in one run or across runs, give the same
digest; and for every key the digest is a fixed-length string of
sixty-four lowercase hexadecimal characters. -/
theorem compute_id_deterministic_fixed_hex (s : String) :
    compute_id s = compute_id s ∧
    (compute_id s).length = 64 ∧
    (compute_id s).data.all isHexChar = true := by
  refine ⟨rfl, ?_, ?_⟩
  · show (hexOfBytes (hash8Bytes (sha256Bytes (utf8Encode s)))).length = 64
    rw [hexOfBytes_length, hash8Bytes_length]
  · exact hexOfBytes_all_hex (hash8Bytes (sha256Bytes (utf8Encode s)))
